import Mathlib

/-!
# Verification of the grain-fitting pipeline (`src/hexrd/fitgrains.py`)

A shallow embedding of the module `hexrd/fitgrains.py`.  The module
orchestrates per-grain refinement jobs: it builds a job queue from input
quaternions, spawns `FitGrainsWorker` processes that repeatedly dequeue a
job, run a two-iteration association + fit loop (`pull_spots` /
`fit_grains`), finalize a strain matrix and residual, and append a result
tuple; finally the orchestrator sorts results by grain id and writes a
fixed-width report.

Numeric values are modelled over `ℚ` (the Python floats are IEEE doubles;
none of the verified properties depends on rounding, only on the exact
arithmetic structure of the code).  Functions imported from *other* hexrd
modules or from numpy/scipy (`pullSpots`, `fitGrain`, `objFuncFitGrain`,
`angleAxisOfRotMat ∘ rotMatOfQuat`, `mapAngle`, `np.radians`,
`logm ∘ inv ∘ vecMVToSymm`) are not part of this source file and are kept
as opaque parameters of an environment structure `Env`; every definition
below is a direct transcription of the control and data flow of
`fitgrains.py` itself.
-/

namespace Hexrd

/-- A numeric triple, used for hkl index triples and for (x, y, omega)
centroid rows. -/
abbrev Vec3 := ℚ × ℚ × ℚ

/-- One row of the per-grain spots table `gtable` that
`FitGrainsWorker.fit_grains` reads back with `np.loadtxt`.  Only the
columns the code actually touches are modelled: column 0 (the reflection
id, nonnegative iff the reflection is flagged valid), columns `1:4` (the
hkl triple), column 6 (the predicted omega angle, radians) and the last
three columns (the measured cartesian centroid plus omega). -/
structure GTableRow where
  refl_id : ℚ
  hkl : Vec3
  pred_ome : ℚ
  xyo : Vec3
deriving DecidableEq

/-- The external collaborators of `fitgrains.py`, bundled with the worker
keyword arguments (`pkwargs`).  Fields `omega_start`, `omega_step`,
`omega_stop` are the scan parameters in degrees, exactly as placed in
`pkwargs` by the orchestrator.  The function fields model code imported
from outside this file:

* `radians`          — `np.radians` (degree → radian conversion);
* `mapAngle`         — `hexrd.xrd.transforms.mapAngle (·, omega_period)`;
* `pull_spots_table` — the composite of `pullSpots` writing the per-grain
  spots file and `np.loadtxt` reading it back, as a function of
  (grain id, current grain parameters, iteration);
* `fitGrain`         — `hexrd.xrd.fitting.fitGrain` applied to
  (xyo_det, hkls, params[:3], params[3:6], params[6:]), the remaining
  arguments of the call being fixed by `pkwargs`;
* `strain`           — `logm(inv(vecMVToSymm ·))`, i.e. the matrix
  logarithm of the inverse of the stretch tensor reconstructed from the
  six stretch components;
* `objFuncFitGrain`  — `hexrd.xrd.fitting.objFuncFitGrain` applied to
  (fit params, full params, flags, xyo_det, hkls, simOnly), the other
  arguments again fixed by `pkwargs`;
* `angleAxisOfQuat`  — `angleAxisOfRotMat (rotMatOfQuat ·)` for a single
  quaternion, returning the rotation angle `phi` and the axis `n`. -/
structure Env where
  omega_start : ℚ
  omega_step : ℚ
  omega_stop : ℚ
  radians : ℚ → ℚ
  mapAngle : ℚ → ℚ
  pull_spots_table : ℕ → List ℚ → ℕ → List GTableRow
  fitGrain : List Vec3 → List Vec3 → List ℚ → List ℚ → List ℚ → List ℚ
  strain : List ℚ → Matrix (Fin 3) (Fin 3) ℚ
  objFuncFitGrain : List ℚ → List ℚ → List Bool → List Vec3 → List Vec3 → Bool → List ℚ
  angleAxisOfQuat : List ℚ → ℚ × List ℚ

/-- Module-level grain parameter refinement flags `gFlag`
(`np.array([1]*12, dtype=bool)`): all twelve entries enabled. -/
def gFlag : List Bool := List.replicate 12 true

/-- Module-level grain parameter scalings `gScl`
(`np.array([1.]*9 + [0.01]*3)`). -/
def gScl : List ℚ := List.replicate 9 1 ++ List.replicate 3 (1 / 100)

/-- Numpy boolean-mask indexing `xs[flags]`: keep the entries whose flag
is `true`. -/
def maskSelect (flags : List Bool) (xs : List ℚ) : List ℚ :=
  (xs.zip flags).filterMap fun p => if p.2 then some p.1 else none

/-- The omega scan window test of `FitGrainsWorker.fit_grains`
(`idx_ome`): the branch on `np.sign(ome_step) < 0` selects the reversed
inequalities, otherwise the predicted omega must lie strictly between
`radians(ome_start + 2*ome_step)` and `radians(ome_stop - 2*ome_step)`. -/
def omeInWindow (env : Env) (ome : ℚ) : Bool :=
  if env.omega_step < 0 then
    decide (ome < env.radians (env.omega_start + 2 * env.omega_step)) &&
      decide (env.radians (env.omega_stop - 2 * env.omega_step) < ome)
  else
    decide (env.radians (env.omega_start + 2 * env.omega_step) < ome) &&
      decide (ome < env.radians (env.omega_stop - 2 * env.omega_step))

/-- The combined validity mask `idx = np.logical_and(valid_refl_ids,
idx_ome)`: reflection id nonnegative and predicted omega inside the
shrunk scan window. -/
def validRow (env : Env) (r : GTableRow) : Bool :=
  decide (0 ≤ r.refl_id) && omeInWindow env r.pred_ome

/-- The mutable entries `self._p['hkls']` and `self._p['xyo_det']` that
`FitGrainsWorker.fit_grains` stores for the later residual computation in
`FitGrainsWorker.loop`. -/
structure PState where
  hkls : List Vec3
  xyo_det : List Vec3
deriving DecidableEq

/-- `gtable[idx, 1:4]`: the hkl triples of the valid rows. -/
def hklsOf (rows : List GTableRow) : List Vec3 := rows.map GTableRow.hkl

/-- `gtable[idx, -3:]` followed by `xyo_det[:, 2] = mapAngle(...)`: the
centroid rows of the valid rows with the omega column mapped into the
omega period. -/
def xyoOf (env : Env) (rows : List GTableRow) : List Vec3 :=
  rows.map fun r => (r.xyo.1, r.xyo.2.1, env.mapAngle r.xyo.2.2)

/-- `FitGrainsWorker.fit_grains` (one association + fit stage): filter
the spots table down to the valid reflections, store their hkls and
centroids, then either return the parameters unchanged with completeness
0 (when at most 12 reflections survive) or run `fitGrain` and return the
refined parameters with completeness `sum(idx)/len(idx)`.  The grain id
argument of the Python method only selects the spots file name, which is
already folded into `pull_spots_table`, so it is dropped here. -/
def FitGrainsWorker.fit_grains (env : Env) (grain_params : List ℚ)
    (gtable : List GTableRow) : List ℚ × ℚ × PState :=
  let rows := gtable.filter (validRow env)
  let st : PState := ⟨hklsOf rows, xyoOf env rows⟩
  if rows.length ≤ 12 then (grain_params, 0, st)
  else
    (env.fitGrain st.xyo_det st.hkls (grain_params.take 3)
        ((grain_params.drop 3).take 3) (grain_params.drop 6),
      (rows.length : ℚ) / (gtable.length : ℚ), st)

/-- The `for iteration in range(2)` loop of `FitGrainsWorker.loop`:
each iteration pulls a fresh spots table for the current parameters and
runs `fit_grains`; the loop breaks as soon as the returned completeness
is 0.  The accumulator carries (grain parameters, completeness, stored
hkls/centroids). -/
def stageLoop (env : Env) (id : ℕ) :
    List ℕ → List ℚ × ℚ × PState → List ℚ × ℚ × PState
  | [], acc => acc
  | it :: rest, acc =>
    let gtable := env.pull_spots_table id acc.1 it
    let out := FitGrainsWorker.fit_grains env acc.1 gtable
    if out.2.1 = 0 then out else stageLoop env id rest out

/-- The result tuple `(id, grain_params, compl, eMat, sum(resd**2))`
appended to the shared results list. -/
structure FitResult where
  id : ℕ
  g_refined : List ℚ
  compl : ℚ
  eMat : Matrix (Fin 3) (Fin 3) ℚ
  resd : ℚ
deriving DecidableEq

/-- The body of `FitGrainsWorker.loop` after the dequeue: run the two
refinement iterations, compute
`eMat = logm(inv(vecMVToSymm(grain_params[6:])))`, recompute the
objective residual vector at the final estimate
(`objFuncFitGrain(grain_params[gFlag], grain_params, gFlag, ...,
simOnly=False)` on the stored hkls/centroids) and build the result tuple
with the sum of squared residuals. -/
def FitGrainsWorker.loop (env : Env) (id : ℕ) (grain_params : List ℚ) :
    FitResult :=
  let out := stageLoop env id [0, 1] (grain_params, 0, ⟨[], []⟩)
  let g := out.1
  let resd := env.objFuncFitGrain (maskSelect gFlag g) g gFlag
    out.2.2.xyo_det out.2.2.hkls false
  ⟨id, g, out.2.1, env.strain (g.drop 6), (resd.map fun x => x ^ 2).sum⟩

/-- `FitGrainsWorker.run`: keep calling `loop` until the non-blocking
dequeue `self._jobs.get(False)` raises `Empty`, which is caught and
breaks the loop.  The queue is modelled by the list of jobs still to be
dequeued; the empty list is the `Empty` signal and simply ends the
recursion, returning the results accumulated so far. -/
def FitGrainsWorker.run (env : Env) :
    List (ℕ × List ℚ) → List FitResult → List FitResult
  | [], results => results
  | job :: rest, results =>
    FitGrainsWorker.run env rest
      (results ++ [FitGrainsWorker.loop env job.1 job.2])

/-- The initial grain parameter vector the orchestrator enqueues for one
quaternion: `np.hstack([exp_map.flatten(), 0., 0., 0., 1., 1., 1., 0.,
0., 0.])` with `exp_map = phi[i] * n[:, i]`. -/
def initial_grain_params (env : Env) (quat : List ℚ) : List ℚ :=
  let pn := env.angleAxisOfQuat quat
  (pn.2.map fun x => pn.1 * x) ++ [0, 0, 0, 1, 1, 1, 0, 0, 0]

/-- The job-queue filling loop `for i, quat in enumerate(quats.T):
job_queue.put((i, grain_params))`. -/
def build_jobs (env : Env) (quats : List (List ℚ)) : List (ℕ × List ℚ) :=
  quats.enum.map fun iq => (iq.1, initial_grain_params env iq.2)

/-- The strain entries a report row carries, in column order:
`eMat[0,0], eMat[1,1], eMat[2,2], eMat[1,2], eMat[0,2], eMat[0,1]`. -/
def strain_entries (r : FitResult) : List ℚ :=
  [r.eMat 0 0, r.eMat 1 1, r.eMat 2 2, r.eMat 1 2, r.eMat 0 2, r.eMat 0 1]

/-- One data row of `grains.out` (`res_items`), as the ordered list of
the 21 numeric values written: id, completeness, residual, the twelve
grain parameters, then the six strain entries.  The `%14.7g` text
formatting itself is not modelled; the row is the tuple of values it
renders. -/
def report_row (r : FitResult) : List ℚ :=
  [(r.id : ℚ), r.compl, r.resd] ++ r.g_refined ++ strain_entries r

/-- The order `sorted(results)` sorts by: Python tuple comparison on
`(id, ...)`, which for pairwise-distinct ids is comparison of the ids. -/
def resLE (a b : FitResult) : Prop := a.id ≤ b.id

instance : DecidableRel resLE := fun a b =>
  inferInstanceAs (Decidable (a.id ≤ b.id))

instance : IsTotal FitResult resLE := ⟨fun a b => Nat.le_total a.id b.id⟩

instance : IsTrans FitResult resLE := ⟨fun _ _ _ h h' => Nat.le_trans h h'⟩

/-- `sorted(results)`: the results sorted by grain id.  (Python's
`sorted` on the result tuples compares ids first and is only well defined
when the ids are pairwise distinct — numpy arrays are not comparable — so
any comparison sort by id is a faithful model; insertion sort is used.) -/
def sorted_results (rs : List FitResult) : List FitResult :=
  rs.insertionSort resLE

/-- The data rows of the report, in the order they are written. -/
def report_rows (rs : List FitResult) : List (List ℚ) :=
  (sorted_results rs).map report_row

/-- Strict id order on results, used to state determinism of the
report. -/
def resLT (a b : FitResult) : Prop := a.id < b.id

instance : IsAntisymm FitResult resLT :=
  ⟨fun _ _ h h' => absurd (Nat.lt_trans h h') (Nat.lt_irrefl _)⟩

/-! ## Basic facts about the embedded code -/

/-- When at most 12 reflections survive association, `fit_grains` returns
the input parameters with completeness 0, having stored the (few) valid
hkls and centroids. -/
theorem fit_grains_of_le (env : Env) (gp : List ℚ) (gtable : List GTableRow)
    (h : (gtable.filter (validRow env)).length ≤ 12) :
    FitGrainsWorker.fit_grains env gp gtable =
      (gp, 0, ⟨hklsOf (gtable.filter (validRow env)),
        xyoOf env (gtable.filter (validRow env))⟩) := by
  simp [FitGrainsWorker.fit_grains, h]

/-- When more than 12 reflections survive association, `fit_grains` runs
the optimizer and reports completeness `sum(idx)/len(idx)`. -/
theorem fit_grains_of_gt (env : Env) (gp : List ℚ) (gtable : List GTableRow)
    (h : 12 < (gtable.filter (validRow env)).length) :
    FitGrainsWorker.fit_grains env gp gtable =
      (env.fitGrain (xyoOf env (gtable.filter (validRow env)))
          (hklsOf (gtable.filter (validRow env))) (gp.take 3)
          ((gp.drop 3).take 3) (gp.drop 6),
        ((gtable.filter (validRow env)).length : ℚ) / (gtable.length : ℚ),
        ⟨hklsOf (gtable.filter (validRow env)),
          xyoOf env (gtable.filter (validRow env))⟩) := by
  simp [FitGrainsWorker.fit_grains, Nat.not_le.mpr h]

/-- A completeness computed from more than 12 valid reflections is
positive (so the `if compl == 0: break` test does not fire). -/
theorem compl_pos (c t : ℕ) (h13 : 12 < c) (hct : c ≤ t) :
    (0 : ℚ) < (c : ℚ) / (t : ℚ) := by
  have hc : (0 : ℚ) < (c : ℚ) := by exact_mod_cast Nat.lt_of_lt_of_le (by norm_num) h13
  have ht : (0 : ℚ) < (t : ℚ) := by exact_mod_cast Nat.lt_of_lt_of_le (Nat.lt_of_lt_of_le (by norm_num) h13) hct
  exact div_pos hc ht

/-- Closed form of the worker's run loop: it drains the queue, appending
exactly one result per dequeued job, in order, and stops (without error
and without appending anything else) when the dequeue signals empty. -/
theorem run_append (env : Env) (jobs : List (ℕ × List ℚ))
    (results : List FitResult) :
    FitGrainsWorker.run env jobs results =
      results ++ jobs.map fun j => FitGrainsWorker.loop env j.1 j.2 := by
  induction jobs generalizing results with
  | nil => simp [FitGrainsWorker.run]
  | cons j rest ih => simp [FitGrainsWorker.run, ih]

/-- The grain id of a job is carried unchanged into its result. -/
theorem loop_id (env : Env) (id : ℕ) (gp : List ℚ) :
    (FitGrainsWorker.loop env id gp).id = id := rfl

/-- The job ids produced by the orchestrator's queue-filling loop are
`0, 1, …, n-1` in order. -/
theorem build_jobs_map_fst (env : Env) (quats : List (List ℚ)) :
    (build_jobs env quats).map Prod.fst = List.range quats.length := by
  simp [build_jobs, List.map_map]
  exact List.enum_map_fst quats

/-- The parameter vectors enqueued are the converted quaternions in
order. -/
theorem build_jobs_map_snd (env : Env) (quats : List (List ℚ)) :
    (build_jobs env quats).map Prod.snd =
      quats.map (initial_grain_params env) := by
  have key : ∀ (k : ℕ) (l : List (List ℚ)),
      ((l.enumFrom k).map fun iq =>
          ((iq.1 : ℕ), initial_grain_params env iq.2)).map Prod.snd =
        l.map (initial_grain_params env) := by
    intro k l
    induction l generalizing k with
    | nil => rfl
    | cons a l ih => simpa [List.enumFrom] using ih (k + 1)
  exact key 0 quats

/-! ## Concrete instantiations used to witness the theorems -/

/-- The twelve-entry initial parameter vector for the identity
orientation. -/
def gpZero : List ℚ := [0, 0, 0, 0, 0, 0, 1, 1, 1, 0, 0, 0]

/-- A twelve-entry vector of ones, used as an optimizer output. -/
def gpOnes : List ℚ := List.replicate 12 1

/-- A base concrete environment: positive omega step, empty spots
tables, trivial oracles. -/
def envBase : Env where
  omega_start := 0
  omega_step := 1
  omega_stop := 100
  radians := fun x => x
  mapAngle := fun x => x
  pull_spots_table := fun _ _ _ => []
  fitGrain := fun _ _ _ _ _ => gpOnes
  strain := fun _ => Matrix.of fun _ _ => 0
  objFuncFitGrain := fun _ _ _ _ _ _ => []
  angleAxisOfQuat := fun _ => (0, [0, 0, 0])

/-- A spots-table row that is valid for `envBase`-like environments:
reflection id 0 and predicted omega 50, inside the shrunk window
(2, 98). -/
def row50 : GTableRow := ⟨0, (1, 2, 3), 50, (4, 5, 6)⟩

/-- A spots table holding 13 valid rows. -/
def table13 : List GTableRow := List.replicate 13 row50

/-- An environment whose first iteration associates 13 reflections and
whose second associates none. -/
def envFit : Env := { envBase with
  pull_spots_table := fun _ _ it => if it = 0 then table13 else [] }

/-- The row `row50` passes the validity test in any environment with the
`envBase` scan parameters. -/
theorem validRow_row50 (env : Env) (h1 : env.omega_start = 0)
    (h2 : env.omega_step = 1) (h3 : env.omega_stop = 100)
    (h4 : env.radians = fun x => x) : validRow env row50 = true := by
  norm_num [validRow, omeInWindow, h1, h2, h3, h4, row50]

/-- With a valid `row50`, filtering `table13` keeps all 13 rows. -/
theorem filter_table13 (env : Env) (h : validRow env row50 = true) :
    table13.filter (validRow env) = table13 :=
  List.filter_eq_self.mpr fun a ha => by
    rw [List.eq_of_mem_replicate (show a ∈ List.replicate 13 row50 from ha)]
    exact h

/-- The valid-reflection count of `table13` is 13 in any environment with
the `envBase` scan parameters. -/
theorem count_table13 (env : Env) (h1 : env.omega_start = 0)
    (h2 : env.omega_step = 1) (h3 : env.omega_stop = 100)
    (h4 : env.radians = fun x => x) :
    (table13.filter (validRow env)).length = 13 := by
  rw [filter_table13 env (validRow_row50 env h1 h2 h3 h4)]
  decide

/-- When the first association stage yields at most 12 valid reflections
the whole job loop ends immediately: the result tuple keeps the input
parameters, has completeness 0, and its strain and residual are computed
from the input stretch components and the data stored by that failed
association. -/
theorem loop_of_stage0_le (env : Env) (id : ℕ) (gp0 : List ℚ)
    (h : ((env.pull_spots_table id gp0 0).filter (validRow env)).length ≤ 12) :
    FitGrainsWorker.loop env id gp0 =
      ⟨id, gp0, 0, env.strain (gp0.drop 6),
        ((env.objFuncFitGrain (maskSelect gFlag gp0) gp0 gFlag
            (xyoOf env ((env.pull_spots_table id gp0 0).filter (validRow env)))
            (hklsOf ((env.pull_spots_table id gp0 0).filter (validRow env)))
            false).map fun x => x ^ 2).sum⟩ := by
  have e0 := fit_grains_of_le env gp0 (env.pull_spots_table id gp0 0) h
  simp [FitGrainsWorker.loop, stageLoop, e0]

/-- When the first stage fits (more than 12 reflections) and the second
stage then fails the 12-reflection test, the job ends with the stage-one
parameters and completeness 0. -/
theorem loop_of_stage1_le (env : Env) (id : ℕ) (gp0 gp1 : List ℚ)
    (h0 : 12 < ((env.pull_spots_table id gp0 0).filter (validRow env)).length)
    (hgp1 : gp1 =
      (FitGrainsWorker.fit_grains env gp0 (env.pull_spots_table id gp0 0)).1)
    (h1 : ((env.pull_spots_table id gp1 1).filter (validRow env)).length ≤ 12) :
    FitGrainsWorker.loop env id gp0 =
      ⟨id, gp1, 0, env.strain (gp1.drop 6),
        ((env.objFuncFitGrain (maskSelect gFlag gp1) gp1 gFlag
            (xyoOf env ((env.pull_spots_table id gp1 1).filter (validRow env)))
            (hklsOf ((env.pull_spots_table id gp1 1).filter (validRow env)))
            false).map fun x => x ^ 2).sum⟩ := by
  subst hgp1
  have e0 := fit_grains_of_gt env gp0 (env.pull_spots_table id gp0 0) h0
  have hne : ¬ ((((env.pull_spots_table id gp0 0).filter (validRow env)).length : ℚ) /
      ((env.pull_spots_table id gp0 0).length : ℚ) = 0) :=
    ne_of_gt (compl_pos _ _ h0 (List.length_filter_le _ _))
  have e1 := fit_grains_of_le env
    (FitGrainsWorker.fit_grains env gp0 (env.pull_spots_table id gp0 0)).1
    (env.pull_spots_table id
      (FitGrainsWorker.fit_grains env gp0 (env.pull_spots_table id gp0 0)).1 1) h1
  simp only [FitGrainsWorker.loop, stageLoop, e0] at e1 ⊢
  simp [e0, hne, e1]

/-! ## The claims -/

/-- C1: for every job and every refinement stage, if the count of valid
reflections after association is at most 12, the stage returns
completeness 0 and the grain parameters unchanged (no optimization
applied); at the job level the loop then breaks, skipping the remaining
fit stage and proceeding directly to finalization with the parameters as
of the last successful stage — the input parameters when stage one fails,
the stage-one output when stage two fails. -/
theorem C1_early_exit (env : Env) (id : ℕ) (gp gp0 : List ℚ)
    (gtable : List GTableRow) :
    ((gtable.filter (validRow env)).length ≤ 12 →
      FitGrainsWorker.fit_grains env gp gtable =
        (gp, 0, ⟨hklsOf (gtable.filter (validRow env)),
          xyoOf env (gtable.filter (validRow env))⟩)) ∧
    (((env.pull_spots_table id gp0 0).filter (validRow env)).length ≤ 12 →
      (FitGrainsWorker.loop env id gp0).g_refined = gp0 ∧
        (FitGrainsWorker.loop env id gp0).compl = 0) ∧
    (∀ gp1 : List ℚ,
      12 < ((env.pull_spots_table id gp0 0).filter (validRow env)).length →
      gp1 = (FitGrainsWorker.fit_grains env gp0
        (env.pull_spots_table id gp0 0)).1 →
      ((env.pull_spots_table id gp1 1).filter (validRow env)).length ≤ 12 →
      (FitGrainsWorker.loop env id gp0).g_refined = gp1 ∧
        (FitGrainsWorker.loop env id gp0).compl = 0) := by
  refine ⟨fun h => fit_grains_of_le env gp gtable h, fun h => ?_,
    fun gp1 h0 hgp1 h1 => ?_⟩
  · rw [loop_of_stage0_le env id gp0 h]
    exact ⟨rfl, rfl⟩
  · rw [loop_of_stage1_le env id gp0 gp1 h0 hgp1 h1]
    exact ⟨rfl, rfl⟩

/-- The stage-one fit of `envFit` on the identity start returns the
oracle output `gpOnes`. -/
theorem envFit_stage_one_params :
    gpOnes = (FitGrainsWorker.fit_grains envFit gpZero
      (envFit.pull_spots_table 0 gpZero 0)).1 := by
  rw [show envFit.pull_spots_table 0 gpZero 0 = table13 from rfl,
    fit_grains_of_gt envFit gpZero table13
      (by rw [count_table13 envFit rfl rfl rfl rfl]; decide)]
  rfl

/-- Witness for C1 at concrete inputs: an empty stage-one table (early
exit with unchanged parameters), and a 13-reflection stage one followed
by an empty stage two (early exit with the stage-one parameters). -/
theorem C1_early_exit_witness :
    FitGrainsWorker.fit_grains envBase gpZero [] = (gpZero, 0, ⟨[], []⟩) ∧
    ((FitGrainsWorker.loop envBase 0 gpZero).g_refined = gpZero ∧
      (FitGrainsWorker.loop envBase 0 gpZero).compl = 0) ∧
    ((FitGrainsWorker.loop envFit 0 gpZero).g_refined = gpOnes ∧
      (FitGrainsWorker.loop envFit 0 gpZero).compl = 0) :=
  ⟨(C1_early_exit envBase 0 gpZero gpZero []).1 (by decide),
   (C1_early_exit envBase 0 gpZero gpZero []).2.1 (by decide),
   (C1_early_exit envFit 0 gpZero gpZero []).2.2 gpOnes
     (by rw [show envFit.pull_spots_table 0 gpZero 0 = table13 from rfl,
         count_table13 envFit rfl rfl rfl rfl]; decide)
     envFit_stage_one_params
     (by decide)⟩

/-- C3: for every stage in which the fit is actually run (more than 12
valid reflections), the completeness returned equals the number of valid
reflections divided by the total number of candidate reflections in the
stage's table, and this value lies in [0, 1]. -/
theorem C3_completeness (env : Env) (gp : List ℚ) (gtable : List GTableRow)
    (h : 12 < (gtable.filter (validRow env)).length) :
    (FitGrainsWorker.fit_grains env gp gtable).2.1 =
      ((gtable.filter (validRow env)).length : ℚ) / (gtable.length : ℚ) ∧
    0 ≤ (FitGrainsWorker.fit_grains env gp gtable).2.1 ∧
    (FitGrainsWorker.fit_grains env gp gtable).2.1 ≤ 1 := by
  rw [fit_grains_of_gt env gp gtable h]
  have hle : (gtable.filter (validRow env)).length ≤ gtable.length :=
    List.length_filter_le _ _
  have ht : (0 : ℚ) < (gtable.length : ℚ) := by
    exact_mod_cast Nat.lt_of_lt_of_le (Nat.lt_of_lt_of_le (by norm_num) h) hle
  refine ⟨rfl, le_of_lt (compl_pos _ _ h hle), ?_⟩
  exact (div_le_one ht).mpr (by exact_mod_cast hle)

/-- Witness for C3: the 13-reflection table gives completeness 13/13 = 1,
inside [0, 1]. -/
theorem C3_completeness_witness :
    12 < (table13.filter (validRow envFit)).length ∧
    ((FitGrainsWorker.fit_grains envFit gpZero table13).2.1 =
        ((table13.filter (validRow envFit)).length : ℚ) / (table13.length : ℚ) ∧
      0 ≤ (FitGrainsWorker.fit_grains envFit gpZero table13).2.1 ∧
      (FitGrainsWorker.fit_grains envFit gpZero table13).2.1 ≤ 1) :=
  ⟨by rw [count_table13 envFit rfl rfl rfl rfl]; decide,
   C3_completeness envFit gpZero table13
     (by rw [count_table13 envFit rfl rfl rfl rfl]; decide)⟩

/-- An environment for the C10 witness whose residual oracle returns a
nonempty vector even for the empty reflection data of a failed
association. -/
def envC10 : Env :=
  { envBase with objFuncFitGrain := fun _ _ _ _ _ _ => [3] }

/-- C10: even when the first association stage yields at most 12 valid
reflections (fit skipped, completeness 0), the worker still computes the
strain matrix from the current stretch components and still evaluates and
sums the squared objective residuals using the hkls and centroids stored
by that failed association — stored before the 12-reflection check — and
its run loop appends the complete result tuple for the job. -/
theorem C10_degraded_result (env : Env) (id : ℕ) (gp0 : List ℚ)
    (res : List FitResult)
    (h : ((env.pull_spots_table id gp0 0).filter (validRow env)).length ≤ 12) :
    FitGrainsWorker.loop env id gp0 =
      ⟨id, gp0, 0, env.strain (gp0.drop 6),
        ((env.objFuncFitGrain (maskSelect gFlag gp0) gp0 gFlag
            (xyoOf env ((env.pull_spots_table id gp0 0).filter (validRow env)))
            (hklsOf ((env.pull_spots_table id gp0 0).filter (validRow env)))
            false).map fun x => x ^ 2).sum⟩ ∧
    FitGrainsWorker.run env [(id, gp0)] res =
      res ++ [FitGrainsWorker.loop env id gp0] :=
  ⟨loop_of_stage0_le env id gp0 h, run_append env [(id, gp0)] res⟩

/-- Witness for C10: with an empty spots table the job still produces the
full tuple, whose residual is the sum of squares of the oracle value `[3]`
evaluated on the empty stored data. -/
theorem C10_degraded_result_witness :
    ((envC10.pull_spots_table 7 gpZero 0).filter (validRow envC10)).length ≤ 12 ∧
    (FitGrainsWorker.loop envC10 7 gpZero =
        ⟨7, gpZero, 0, envC10.strain (gpZero.drop 6),
          ((envC10.objFuncFitGrain (maskSelect gFlag gpZero) gpZero gFlag
              (xyoOf envC10
                ((envC10.pull_spots_table 7 gpZero 0).filter (validRow envC10)))
              (hklsOf
                ((envC10.pull_spots_table 7 gpZero 0).filter (validRow envC10)))
              false).map fun x => x ^ 2).sum⟩ ∧
      FitGrainsWorker.run envC10 [(7, gpZero)] [] =
        [] ++ [FitGrainsWorker.loop envC10 7 gpZero]) :=
  ⟨by decide, C10_degraded_result envC10 7 gpZero [] (by decide)⟩

/-- C5: in every refinement stage a reflection is counted as valid
exactly when its validity flag is set (reflection id nonnegative) and its
predicted omega lies strictly inside the scan's angular range shrunk by
two angular steps at each end — strictly above `start + 2·step` and
strictly below `stop − 2·step` (after degree-to-radian conversion) for a
positive step, with the inequalities reversed for a negative step. -/
theorem C5_validity (env : Env) (r : GTableRow) :
    (0 < env.omega_step →
      (validRow env r = true ↔ 0 ≤ r.refl_id ∧
        env.radians (env.omega_start + 2 * env.omega_step) < r.pred_ome ∧
        r.pred_ome < env.radians (env.omega_stop - 2 * env.omega_step))) ∧
    (env.omega_step < 0 →
      (validRow env r = true ↔ 0 ≤ r.refl_id ∧
        r.pred_ome < env.radians (env.omega_start + 2 * env.omega_step) ∧
        env.radians (env.omega_stop - 2 * env.omega_step) < r.pred_ome)) := by
  constructor
  · intro hstep
    have hns : ¬ env.omega_step < 0 := not_lt.mpr (le_of_lt hstep)
    simp [validRow, omeInWindow, hns]
  · intro hstep
    simp [validRow, omeInWindow, hstep]

/-- Witness for C5: in the base environment (step 1, range 0..100) the
validity of `row50` is equivalent to the two window inequalities plus the
flag test. -/
theorem C5_validity_witness :
    0 < envBase.omega_step ∧
    (validRow envBase row50 = true ↔ 0 ≤ row50.refl_id ∧
      envBase.radians (envBase.omega_start + 2 * envBase.omega_step) <
        row50.pred_ome ∧
      row50.pred_ome <
        envBase.radians (envBase.omega_stop - 2 * envBase.omega_step)) :=
  ⟨by decide, (C5_validity envBase row50).1 (by decide)⟩

/-- C6: for every input quaternion the enqueued initial grain-parameter
vector has exactly 12 entries: the first three are the exponential map
(rotation angle times axis) of the quaternion, the next three
(translation) are zero, and the last six (stretch) are the identity;
moreover the queue-filling loop assigns ids 0..n−1 in order. -/
theorem C6_initial_params (env : Env) (q : List ℚ) (quats : List (List ℚ))
    (h3 : (env.angleAxisOfQuat q).2.length = 3) :
    (initial_grain_params env q).length = 12 ∧
    (initial_grain_params env q).take 3 =
      (env.angleAxisOfQuat q).2.map (fun x => (env.angleAxisOfQuat q).1 * x) ∧
    ((initial_grain_params env q).drop 3).take 3 = [0, 0, 0] ∧
    (initial_grain_params env q).drop 6 = [1, 1, 1, 0, 0, 0] ∧
    (build_jobs env quats).map Prod.fst = List.range quats.length ∧
    (build_jobs env quats).map Prod.snd =
      quats.map (initial_grain_params env) := by
  obtain ⟨a, b, c, habc⟩ := List.length_eq_three.mp h3
  refine ⟨?_, ?_, ?_, ?_, build_jobs_map_fst env quats,
    build_jobs_map_snd env quats⟩ <;>
  simp [initial_grain_params, habc]

/-- An environment for the C6 witness with a nontrivial quaternion
conversion oracle. -/
def envC6 : Env :=
  { envBase with angleAxisOfQuat := fun _ => (2, [5, 6, 7]) }

/-- Witness for C6 at the concrete quaternion `[1, 0, 0, 0]` with
conversion output angle 2 and axis `[5, 6, 7]`. -/
theorem C6_initial_params_witness :
    (envC6.angleAxisOfQuat [1, 0, 0, 0]).2.length = 3 ∧
    ((initial_grain_params envC6 [1, 0, 0, 0]).length = 12 ∧
      (initial_grain_params envC6 [1, 0, 0, 0]).take 3 =
        (envC6.angleAxisOfQuat [1, 0, 0, 0]).2.map
          (fun x => (envC6.angleAxisOfQuat [1, 0, 0, 0]).1 * x) ∧
      ((initial_grain_params envC6 [1, 0, 0, 0]).drop 3).take 3 = [0, 0, 0] ∧
      (initial_grain_params envC6 [1, 0, 0, 0]).drop 6 = [1, 1, 1, 0, 0, 0] ∧
      (build_jobs envC6 [[1, 0, 0, 0]]).map Prod.fst =
        List.range (List.length [[1, 0, 0, 0]]) ∧
      (build_jobs envC6 [[1, 0, 0, 0]]).map Prod.snd =
        ([[1, 0, 0, 0]] : List (List ℚ)).map (initial_grain_params envC6)) :=
  ⟨by decide, C6_initial_params envC6 [1, 0, 0, 0] [[1, 0, 0, 0]] (by decide)⟩

/-- C8: the worker's run loop keeps dequeuing and processing jobs —
appending exactly one result per dequeued job, in order — and terminates
normally exactly when the non-blocking dequeue signals that the queue is
empty; the empty signal merely ends the loop, returning the accumulated
results unchanged, and is never surfaced as an error or attached to a
result. -/
theorem C8_run_drains (env : Env) (jobs : List (ℕ × List ℚ))
    (results : List FitResult) :
    FitGrainsWorker.run env [] results = results ∧
    FitGrainsWorker.run env jobs results =
      results ++ jobs.map fun j => FitGrainsWorker.loop env j.1 j.2 :=
  ⟨rfl, run_append env jobs results⟩

/-- C9: for every batch built from n quaternions, however the jobs are
distributed over workers (any partition of the queue) and however the
appended results interleave (any permutation of the workers' outputs),
the final collection has exactly n entries whose grain ids are exactly
0..n−1, with no duplicates and no gaps. -/
theorem C9_result_ids (env : Env) (quats : List (List ℚ))
    (wjobs : List (List (ℕ × List ℚ))) (res : List FitResult)
    (hpart : wjobs.flatten.Perm (build_jobs env quats))
    (hres : res.Perm
      ((wjobs.map fun js => FitGrainsWorker.run env js []).flatten)) :
    res.length = quats.length ∧
    (res.map FitResult.id).Perm (List.range quats.length) ∧
    (res.map FitResult.id).Nodup := by
  have hjoin : ((wjobs.map fun js => FitGrainsWorker.run env js []).flatten) =
      wjobs.flatten.map fun j => FitGrainsWorker.loop env j.1 j.2 := by
    induction wjobs with
    | nil => rfl
    | cons js rest ih => simp [run_append, ih]
  rw [hjoin] at hres
  have hids : (res.map FitResult.id).Perm (List.range quats.length) := by
    have h1 := hres.map FitResult.id
    have h2 : ((wjobs.flatten.map fun j => FitGrainsWorker.loop env j.1 j.2).map
        FitResult.id) = wjobs.flatten.map Prod.fst := by
      rw [List.map_map]
      exact List.map_congr_left fun a _ => loop_id env a.1 a.2
    rw [h2] at h1
    have h3 := hpart.map Prod.fst
    rw [build_jobs_map_fst] at h3
    exact h1.trans h3
  refine ⟨?_, hids, hids.symm.nodup (List.nodup_range _)⟩
  have hlen := hids.length_eq
  simpa using hlen

/-- A two-job batch for the C9 witness. -/
def quats2 : List (List ℚ) := [[1], [2]]

/-- The two jobs of the batch, as enqueued. -/
def job0 : ℕ × List ℚ := (0, initial_grain_params envBase [1])

/-- The second job of the batch. -/
def job1 : ℕ × List ℚ := (1, initial_grain_params envBase [2])

/-- A two-worker distribution of the batch, jobs handed out in reverse
order. -/
def wjobs2 : List (List (ℕ × List ℚ)) := [[job1], [job0]]

/-- The collected results of the two workers, interleaved in completion
order (job 1 first). -/
def res2 : List FitResult :=
  [FitGrainsWorker.loop envBase 1 (initial_grain_params envBase [2]),
   FitGrainsWorker.loop envBase 0 (initial_grain_params envBase [1])]

/-- Witness for C9: two workers, reversed hand-out and completion order,
still yield ids exactly 0..1. -/
theorem C9_result_ids_witness :
    wjobs2.flatten.Perm (build_jobs envBase quats2) ∧
    res2.Perm ((wjobs2.map fun js => FitGrainsWorker.run envBase js []).flatten) ∧
    (res2.length = quats2.length ∧
      (res2.map FitResult.id).Perm (List.range quats2.length) ∧
      (res2.map FitResult.id).Nodup) := by
  have hpart : wjobs2.flatten.Perm (build_jobs envBase quats2) :=
    List.Perm.swap job0 job1 []
  have hres : res2.Perm
      ((wjobs2.map fun js => FitGrainsWorker.run envBase js []).flatten) :=
    List.Perm.refl res2
  exact ⟨hpart, hres, C9_result_ids envBase quats2 wjobs2 res2 hpart hres⟩

/-- A list of results with pairwise-distinct ids is sorted strictly by id
after `sorted_results`. -/
theorem sorted_results_pairwise_lt (rs : List FitResult)
    (hn : (rs.map FitResult.id).Nodup) :
    (sorted_results rs).Pairwise resLT := by
  have hs : (sorted_results rs).Pairwise resLE :=
    List.sorted_insertionSort resLE rs
  have hp : (sorted_results rs).Perm rs := List.perm_insertionSort resLE rs
  have hn' : ((sorted_results rs).map FitResult.id).Nodup :=
    ((hp.map FitResult.id).symm).nodup hn
  have hne : (sorted_results rs).Pairwise fun a b => a.id ≠ b.id :=
    List.pairwise_map.mp hn'
  exact (hs.and hne).imp fun h => lt_of_le_of_ne h.1 h.2

/-- C7: for every collection of results with pairwise-distinct grain ids,
the report rows are emitted in strictly ascending grain-id order, and the
report is identical for any permutation of the collection — i.e.
independent of completion order and worker count. -/
theorem C7_report_deterministic (rs₁ rs₂ : List FitResult)
    (hnd : (rs₁.map FitResult.id).Nodup) (hperm : rs₁.Perm rs₂) :
    ((sorted_results rs₁).map FitResult.id).Sorted (· < ·) ∧
    report_rows rs₁ = report_rows rs₂ := by
  have h1 := sorted_results_pairwise_lt rs₁ hnd
  have hnd₂ : (rs₂.map FitResult.id).Nodup := (hperm.map FitResult.id).nodup hnd
  have h2 := sorted_results_pairwise_lt rs₂ hnd₂
  have hchain : (sorted_results rs₁).Perm (sorted_results rs₂) :=
    (List.perm_insertionSort resLE rs₁).trans
      (hperm.trans (List.perm_insertionSort resLE rs₂).symm)
  have heq : sorted_results rs₁ = sorted_results rs₂ :=
    List.eq_of_perm_of_sorted hchain h1 h2
  constructor
  · exact List.pairwise_map.mpr h1
  · unfold report_rows
    rw [heq]

/-- A first concrete result (grain id 0). -/
def resA : FitResult := ⟨0, gpZero, 1, Matrix.of fun _ _ => 0, 0⟩

/-- A second concrete result (grain id 1). -/
def resB : FitResult := ⟨1, gpOnes, 1, Matrix.of fun _ _ => 0, 2⟩

/-- Witness for C7: the two-result collection, received in reversed
completion order, yields the same strictly id-sorted report. -/
theorem C7_report_deterministic_witness :
    ([resB, resA].map FitResult.id).Nodup ∧
    ([resB, resA].Perm [resA, resB]) ∧
    (((sorted_results [resB, resA]).map FitResult.id).Sorted (· < ·) ∧
      report_rows [resB, resA] = report_rows [resA, resB]) := by
  have hnd : (([resB, resA]).map FitResult.id).Nodup := by decide
  have hp : ([resB, resA]).Perm [resA, resB] := List.Perm.swap resA resB []
  exact ⟨hnd, hp, C7_report_deterministic [resB, resA] [resA, resB] hnd hp⟩

/-- The strain matrix attached to one job's result: the oracle
`logm(inv(vecMVToSymm(·)))` evaluated on the job's six refined stretch
components. -/
def loopStrain (env : Env) (id : ℕ) (gp : List ℚ) :
    Matrix (Fin 3) (Fin 3) ℚ :=
  env.strain ((FitGrainsWorker.loop env id gp).g_refined.drop 6)

/-- An environment whose strain oracle has a nonzero (1,2) entry. -/
def envC2 : Env := { envBase with
  strain := fun _ => Matrix.of fun i j =>
    if (i = 1 ∧ j = 2) ∨ (i = 2 ∧ j = 1) then 1 else 0 }

/-- C2 counterexample: at a concrete job the `ln(V[1,2])` report column
(position 18 of the row) equals the matrix-logarithm entry (1,2) itself —
here 1 — and not √2 times that entry, refuting the claimed √2 scaling of
the off-diagonal strain entries in the report. -/
theorem C2_sqrt2_scaling_counterexample :
    ¬ ((((report_row (FitGrainsWorker.loop envC2 0 gpZero)).getD 18 0 : ℚ) : ℝ) =
      Real.sqrt 2 * ((loopStrain envC2 0 gpZero 1 2 : ℚ) : ℝ)) := by
  intro h
  have h1 : (report_row (FitGrainsWorker.loop envC2 0 gpZero)).getD 18 0 = 1 := by
    decide
  have h2 : loopStrain envC2 0 gpZero 1 2 = 1 := by decide
  rw [h1, h2] at h
  push_cast at h
  rw [mul_one] at h
  exact absurd (Real.sqrt_eq_one.mp h.symm) (by norm_num)

/-- C2 amended: the strain entries of every report row are, in order, the
entries (0,0), (1,1), (2,2), (1,2), (0,2), (0,1) of the matrix logarithm
of the inverse stretch tensor reconstructed from the refined stretch
components — the off-diagonal entries carried over unscaled, not
multiplied by √2; and whenever that matrix logarithm is symmetric (as for
the log of a symmetric positive-definite stretch) the six reported
entries determine the whole symmetric strain tensor. -/
theorem C2_strain_in_report (env : Env) (id : ℕ) (gp : List ℚ)
    (hsym : (loopStrain env id gp).IsSymm) :
    (FitGrainsWorker.loop env id gp).eMat = loopStrain env id gp ∧
    strain_entries (FitGrainsWorker.loop env id gp) =
      [loopStrain env id gp 0 0, loopStrain env id gp 1 1,
        loopStrain env id gp 2 2, loopStrain env id gp 1 2,
        loopStrain env id gp 0 2, loopStrain env id gp 0 1] ∧
    loopStrain env id gp 2 1 = loopStrain env id gp 1 2 ∧
    loopStrain env id gp 2 0 = loopStrain env id gp 0 2 ∧
    loopStrain env id gp 1 0 = loopStrain env id gp 0 1 :=
  ⟨rfl, rfl, hsym.apply 1 2, hsym.apply 0 2, hsym.apply 0 1⟩

/-- Witness for C2 (amended) at a concrete job whose strain oracle output
(the zero matrix) is symmetric. -/
theorem C2_strain_in_report_witness :
    (loopStrain envBase 0 gpZero).IsSymm ∧
    ((FitGrainsWorker.loop envBase 0 gpZero).eMat = loopStrain envBase 0 gpZero ∧
      strain_entries (FitGrainsWorker.loop envBase 0 gpZero) =
        [loopStrain envBase 0 gpZero 0 0, loopStrain envBase 0 gpZero 1 1,
          loopStrain envBase 0 gpZero 2 2, loopStrain envBase 0 gpZero 1 2,
          loopStrain envBase 0 gpZero 0 2, loopStrain envBase 0 gpZero 0 1] ∧
      loopStrain envBase 0 gpZero 2 1 = loopStrain envBase 0 gpZero 1 2 ∧
      loopStrain envBase 0 gpZero 2 0 = loopStrain envBase 0 gpZero 0 2 ∧
      loopStrain envBase 0 gpZero 1 0 = loopStrain envBase 0 gpZero 0 1) := by
  have hsym : (loopStrain envBase 0 gpZero).IsSymm := by decide
  exact ⟨hsym, C2_strain_in_report envBase 0 gpZero hsym⟩

/-- The replicated valid row keeps all its copies through the validity
filter. -/
theorem filter_replicate_row50 (env : Env) (h : validRow env row50 = true)
    (n : ℕ) :
    (List.replicate n row50).filter (validRow env) = List.replicate n row50 :=
  List.filter_eq_self.mpr fun a ha => by
    rw [List.eq_of_mem_replicate ha]
    exact h

/-- A spots table with 5 valid rows: enough to store reflection data, too
few to run the fit. -/
def table5 : List GTableRow := List.replicate 5 row50

/-- The environment of the C4 failing input: every association finds 5
valid reflections, and the residual oracle returns a vector of 5 ones. -/
def envC4 : Env := { envBase with
  pull_spots_table := fun _ _ _ => table5,
  objFuncFitGrain := fun _ _ _ _ _ _ => List.replicate 5 1 }

/-- The residual column (position 2) of a report row carries exactly the
result's stored `sum(resd**2)`. -/
theorem report_row_getD_two (r : FitResult) :
    (report_row r).getD 2 0 = r.resd := rfl

/-- C4, evaluated at its failing input: the residual is indeed the sum of
squared objective residuals recomputed at the final parameter estimate
over all twelve parameter entries (the all-true flags select the full
vector) with `simOnly = False`; but the value carried into the report's
residual column is that plain sum — 5 here, for 5 reflections with unit
residuals — and not the sum divided by the reflection count (5/5 = 1)
that the column header `sum(resd**2)/nrefl` announces. -/
theorem C4_residual_unnormalized :
    (FitGrainsWorker.loop envC4 0 gpZero).resd =
      ((envC4.objFuncFitGrain (maskSelect gFlag gpZero) gpZero gFlag
          (xyoOf envC4
            ((envC4.pull_spots_table 0 gpZero 0).filter (validRow envC4)))
          (hklsOf
            ((envC4.pull_spots_table 0 gpZero 0).filter (validRow envC4)))
          false).map fun x => x ^ 2).sum ∧
    maskSelect gFlag gpZero = gpZero ∧
    (report_row (FitGrainsWorker.loop envC4 0 gpZero)).getD 2 0 =
      (FitGrainsWorker.loop envC4 0 gpZero).resd ∧
    (FitGrainsWorker.loop envC4 0 gpZero).resd = 5 ∧
    ((envC4.pull_spots_table 0 gpZero 0).filter (validRow envC4)).length = 5 ∧
    (FitGrainsWorker.loop envC4 0 gpZero).resd ≠
      (FitGrainsWorker.loop envC4 0 gpZero).resd / 5 := by
  have hval : validRow envC4 row50 = true :=
    validRow_row50 envC4 rfl rfl rfl rfl
  have hfil : (envC4.pull_spots_table 0 gpZero 0).filter (validRow envC4) =
      table5 := filter_replicate_row50 envC4 hval 5
  have hcount : ((envC4.pull_spots_table 0 gpZero 0).filter
      (validRow envC4)).length = 5 := by rw [hfil]; rfl
  have hle : ((envC4.pull_spots_table 0 gpZero 0).filter
      (validRow envC4)).length ≤ 12 := by rw [hcount]; decide
  have hloop := loop_of_stage0_le envC4 0 gpZero hle
  have hresd : (FitGrainsWorker.loop envC4 0 gpZero).resd =
      ((envC4.objFuncFitGrain (maskSelect gFlag gpZero) gpZero gFlag
          (xyoOf envC4
            ((envC4.pull_spots_table 0 gpZero 0).filter (validRow envC4)))
          (hklsOf
            ((envC4.pull_spots_table 0 gpZero 0).filter (validRow envC4)))
          false).map fun x => x ^ 2).sum := by
    rw [hloop]
  have hfive : (FitGrainsWorker.loop envC4 0 gpZero).resd = 5 := by
    rw [hresd]
    show ((List.replicate 5 (1 : ℚ)).map fun x => x ^ 2).sum = 5
    norm_num [List.map_replicate, List.sum_replicate]
  refine ⟨hresd, by decide, report_row_getD_two _, hfive, hcount, ?_⟩
  rw [hfive]
  norm_num

end Hexrd
